import Mathlib

/-!
Verification of the pySHACL command-line layer (`pyshacl/cli.py`).

This file gives a shallow embedding, in Lean 4, of the report rendering and
error-taxonomy dispatch pipeline of the `main` function in `pyshacl/cli.py`:

* `str_is_true` — the environment-toggle truthiness rule (cli.py lines 33-37);
* `dispatch` — the server/rules mode dispatch at the top of `main`
  (cli.py lines 239-254);
* `col_widther` — the fixed-width column wrapper used by the table renderer
  (cli.py lines 387-394);
* `buildRecord` / `buildRow` / `detailRows` — construction of the detail table
  from the validation-report graph (cli.py lines 396-421);
* `build_kwargs` — the construction of the keyword options forwarded to the
  external validator (cli.py lines 260, 282-324);
* `handleFailure` — the except-clause taxonomy (cli.py lines 330-367);
* `runMain` — the end-to-end flow of `main` after mode dispatch
  (cli.py lines 255-428), with the external validator's outcome and the
  file-system behaviour supplied as parameters.

RDF nodes and stringified objects are modelled as `String`; the report graph
is a list of (subject, predicate, object) triples whose list order stands for
the graph's traversal order.  `PrettyTable` rendering is external: a table
write is recorded as its field names and its rows.
-/

/-- RDF nodes (IRIs, blank nodes, literals) in their stringified form, as the
CLI only ever uses `str(...)` of graph terms. -/
abbrev Node := String

/-- One (subject, predicate, object) triple of the validation-report graph. -/
structure Triple where
  subj : Node
  pred : Node
  obj : Node
deriving DecidableEq, Repr

/-- The report graph: a collection of triples.  List order models the
graph's traversal (iteration) order. -/
abbrev RGraph := List Triple

/-- The SHACL vocabulary namespace, `rdflib.namespace.SH`. -/
def SH : String := "http://www.w3.org/ns/shacl#"

def SH_result : Node := SH ++ "result"

def SH_resultSeverity : Node := SH ++ "resultSeverity"

def SH_focusNode : Node := SH ++ "focusNode"

def SH_resultPath : Node := SH ++ "resultPath"

def SH_resultMessage : Node := SH ++ "resultMessage"

def SH_sourceConstraintComponent : Node := SH ++ "sourceConstraintComponent"

def SH_sourceShape : Node := SH ++ "sourceShape"

def SH_value : Node := SH ++ "value"

/-- Model of `graph.objects(None, p)`: the objects of all triples whose predicate is
`p`, in traversal order, with repetitions (rdflib yields one object per
matching triple). -/
def objectsOf (g : RGraph) (p : Node) : List Node :=
  (g.filter (fun t => t.pred = p)).map (fun t => t.obj)

/-- Model of `graph.predicate_objects(s)`: the (predicate, object) pairs of all
triples whose subject is `s`, in traversal order. -/
def predicateObjectsOf (g : RGraph) (s : Node) : List (Node × Node) :=
  (g.filter (fun t => t.subj = s)).map (fun t => (t.pred, t.obj))

/-- Lookup in a Python-dict-like association list built by successive
assignments: the last binding for a key wins. -/
def dictGet (r : List (Node × String)) (k : Node) : Option String :=
  r.reverse.lookup k

/-- Python `str.lower()` on one character (the CLI only lowercases ASCII
option values and URLs). -/
def pyLowerChar (c : Char) : Char :=
  if 'A' ≤ c ∧ c ≤ 'Z' then Char.ofNat (c.toNat + 32) else c

/-- Python `str.lower()`. -/
def pyLower (s : String) : String :=
  (s.data.map pyLowerChar).asString

/-- Python's default `str.strip()` whitespace set (ASCII part). -/
def pyIsSpace (c : Char) : Bool :=
  c = ' ' ∨ c = '\t' ∨ c = '\n' ∨ c = '\x0b' ∨ c = '\x0c' ∨ c = '\r'

/-- Python `str.strip()`: remove leading and trailing whitespace. -/
def pyStrip (s : String) : String :=
  (((s.data.dropWhile pyIsSpace).reverse.dropWhile pyIsSpace).reverse).asString

/-- Python `str.startswith(pre)`. -/
def pyStartswith (s pre : String) : Bool :=
  pre.data.isPrefixOf s.data

/-- Python `str.split(sep)` for a one-character separator (the CLI splits
on `','`). -/
def splitOnChar (sep : Char) : List Char → List (List Char)
  | [] => [[]]
  | c :: rest =>
    if c = sep then [] :: splitOnChar sep rest
    else
      match splitOnChar sep rest with
      | [] => [[c]]
      | h :: t => (c :: h) :: t

/-- Python `s.split(',')` as a string-level operation. -/
def pySplitComma (s : String) : List String :=
  (splitOnChar ',' s.data).map List.asString

/-- The scanning loop of Python `str.replace`, with the character count as
fuel: each step either replaces a match of `pat` (consuming at least one
character, as `pat` is non-empty at the call site) or moves over one
character. -/
def pyReplaceGo (pat rep : List Char) : Nat → List Char → List Char
  | _, [] => []
  | 0, l => l
  | fuel + 1, c :: rest =>
    if pat.isPrefixOf (c :: rest) then
      rep ++ pyReplaceGo pat rep fuel (rest.drop (pat.length - 1))
    else
      c :: pyReplaceGo pat rep fuel rest

/-- Python `s.replace(pat, rep)`: replace every non-overlapping occurrence
of `pat`, left to right.  The CLI only ever replaces the (non-empty) SHACL
namespace prefix, so the empty pattern is mapped to the identity. -/
def pyReplace (s pat rep : String) : String :=
  match pat.data with
  | [] => s
  | p :: ps => (pyReplaceGo (p :: ps) rep.data s.data.length s.data).asString

/-- Function `str_is_true` (cli.py lines 33-37): the environment toggle's truthiness
rule. -/
def str_is_true (s_var : String) : Bool :=
  if s_var.length > 0 then
    if pyLower s_var ∉ ["0", "f", "n", "false", "no"] then true
    else false
  else false

/-- The effective value of the server environment toggle
(cli.py lines 239-240): `PYSHACL_SERVER` overrides `PYSHACL_HTTP`,
missing variables read as the empty string. -/
def effectiveToggle (envHttp envServer : Option String) : String :=
  envServer.getD (envHttp.getD "")

/-- The loop of `col_widther` (cli.py lines 389-393) at the call-site width
25, with the character count as fuel: while characters remain, slice off
`s[i : i + 25]` (i.e. the head and the next 24 characters) and continue on
the rest.  Each iteration consumes at least one character, so fuel equal to
the length of the list never runs out. -/
def colWidtherGo : Nat → List Char → List (List Char)
  | _, [] => []
  | 0, _ :: _ => []
  | fuel + 1, c :: rest => (c :: rest.take 24) :: colWidtherGo fuel (rest.drop 24)

/-- The chunking of `col_widther` (cli.py lines 387-394) at the call-site width 25:
the successive 25-character slices `s[i : i + 25]` of the character list. -/
def colWidtherChunks (s : List Char) : List (List Char) :=
  colWidtherGo s.length s

/-- Function `col_widther(s, 25)` (cli.py lines 387-394, called at line 408): split a
string into 25-character slices and join them with newlines. -/
def col_widther (s : String) : String :=
  String.intercalate "\n" ((colWidtherChunks s.data).map List.asString)

/-- The `ResultRecord` of one result node (cli.py lines 406-408): all
(predicate, object) pairs of the node, the object stringified, the SHACL
namespace prefix removed from it, and the remainder wrapped at 25
characters.  A Python dict built by successive assignment is modelled as the
association list of the assignments (`dictGet` takes the last binding). -/
def buildRecord (g : RGraph) (o : Node) : List (Node × String) :=
  (predicateObjectsOf g o).map
    (fun po => (po.1, col_widther (pyReplace po.2 SH "")))

/-- The all-empty separator row appended after every data row
(cli.py line 421). -/
def blankRow : List String :=
  ["", "", "", "", "", "", "", ""]

/-- The field names of the detail table `t2` (cli.py line 401). -/
def detailFieldNames : List String :=
  ["No.", "Severity", "Focus Node", "Result Path", "Message", "Component",
   "Shape", "Value"]

/-- One data row of the detail table (cli.py lines 409-420).  The severity,
focus-node, component and shape fields are direct dictionary lookups
(`r[...]`), raising `KeyError` when absent — modelled as `Except.error`;
the path, message and value fields fall back to a dash.  `i` is the
0-based enumeration index; the printed number is `i + 1`. -/
def buildRow (i : Nat) (r : List (Node × String)) : Except Unit (List String) :=
  match dictGet r SH_resultSeverity, dictGet r SH_focusNode,
      dictGet r SH_sourceConstraintComponent, dictGet r SH_sourceShape with
  | some sev, some fn, some scc, some ss =>
    .ok [toString (i + 1), sev, fn,
      (dictGet r SH_resultPath).getD "-",
      (dictGet r SH_resultMessage).getD "-",
      scc, ss,
      (dictGet r SH_value).getD "-"]
  | _, _, _, _ => .error ()

/-- The rows of the detail table `t2` (cli.py lines 405-421): one data row
per object of a `sh:result` triple, in traversal order, each followed by the
blank separator row.  `Except.error` models an uncaught `KeyError` during
row construction. -/
def detailRows (g : RGraph) : Except Unit (List (List String)) := do
  let os := objectsOf g SH_result
  let rows ← os.enum.mapM (fun io => buildRow io.1 (buildRecord g io.2))
  return (rows.map (fun r => [r, blankRow])).flatten

/-- Rendering `str(...)` of a Python bool, as written into the summary table. -/
def pyBool (b : Bool) : String :=
  if b then "True" else "False"

/-- The parsed command-line namespace (the `argparse` destinations used by
`main`, cli.py lines 40-232).  `Option String` fields model arguments whose
Python value may be `None`. -/
structure Args where
  data : Option String := none
  shacl : Option String := none
  ont : Option String := none
  inference : String := "none"
  metashacl : Bool := false
  sparql_mode : Bool := false
  imports : Bool := false
  advanced : Bool := false
  js : Bool := false
  iterate_rules : Bool := false
  abort : Bool := false
  allow_infos : Bool := false
  allow_warnings : Bool := false
  debug : Bool := false
  focus : Option String := none
  shape : Option String := none
  format : String := "human"
  data_file_format : String := "auto"
  shacl_file_format : String := "auto"
  ont_file_format : String := "auto"
  do_rules : Bool := false
  server : Bool := false
deriving DecidableEq, Repr

/-- Python truthiness of an optional string (`if not args.data`,
`if args.focus`, ...): `None` and the empty string are falsy. -/
def optTruthy : Option String → Bool
  | none => false
  | some s => s ≠ ""

/-- Result of the mode dispatch at the top of `main`
(cli.py lines 239-254). -/
inductive Dispatch where
  /-- State where `http_main()` was entered (it never returns); the flag records whether
  argument parsing was bypassed (`args = argparse.Namespace()`). -/
  | serverMode (bypassedParsing : Bool)
  /-- State where `rules_main()` was entered (it never returns). -/
  | rulesMode
  /-- State where `args.server` was read from the empty namespace: an uncaught
  `AttributeError`. -/
  | crashedAttr
  /-- Normal validation flow continues with the parsed arguments. -/
  | continueMain (args : Args)
deriving DecidableEq, Repr

/-- The mode dispatch of `main` (cli.py lines 239-254): read the environment
toggle; when it is non-empty skip argument parsing; enter server mode when
`str_is_true(do_server) or args.server`; enter rules mode on `--rules`. -/
def dispatch (envHttp envServer : Option String) (parsed : Args) : Dispatch :=
  let do_server := effectiveToggle envHttp envServer
  if do_server ≠ "" then
    if str_is_true do_server then .serverMode true
    else .crashedAttr
  else
    if str_is_true do_server then .serverMode false
    else if parsed.server then .serverMode false
    else if parsed.do_rules then .rulesMode
    else .continueMain parsed

/-- A value stored in `validator_kwargs`. -/
inductive KwargVal where
  | b (b : Bool)
  | s (s : String)
  | ls (l : List String)
deriving DecidableEq, Repr

/-- The `validator_kwargs` mapping forwarded to `validate(...)`
(cli.py lines 260, 269, 282-324), as the list of assignments in program
order.  `sparql` tells whether the SPARQL branch added `sparql_mode=True`
(cli.py line 269). -/
def build_kwargs (args : Args) (sparql : Bool) : List (String × KwargVal) :=
  [("debug", KwargVal.b args.debug)]
  ++ (if sparql then [("sparql_mode", KwargVal.b true)] else [])
  ++ (match args.shacl with
      | some sh => [("shacl_graph", KwargVal.s sh)]
      | none => [])
  ++ (match args.ont with
      | some o => [("ont_graph", KwargVal.s o)]
      | none => [])
  ++ (if args.format ∉ ["human", "table"] then
        [("serialize_report_graph", KwargVal.s args.format)]
      else [])
  ++ (if args.inference ≠ "none" then
        [("inference", KwargVal.s args.inference)]
      else [])
  ++ (if args.imports then [("do_owl_imports", KwargVal.b true)] else [])
  ++ (if args.metashacl then [("meta_shacl", KwargVal.b true)] else [])
  ++ (if args.advanced then [("advanced", KwargVal.b true)] else [])
  ++ (if args.js then [("js", KwargVal.b true)] else [])
  ++ (match args.focus with
      | some f =>
        if f ≠ "" then
          [("focus_nodes", KwargVal.ls ((pySplitComma f).map pyStrip))]
        else []
      | none => [])
  ++ (match args.shape with
      | some s =>
        if s ≠ "" then
          [("use_shapes", KwargVal.ls ((pySplitComma s).map pyStrip))]
        else []
      | none => [])
  ++ (if args.iterate_rules then
        if args.advanced then [("iterate_rules", KwargVal.b true)] else []
      else [])
  ++ (if args.abort then [("abort_on_first", KwargVal.b true)] else [])
  ++ (if args.allow_infos then [("allow_infos", KwargVal.b true)] else [])
  ++ (if args.allow_warnings then [("allow_warnings", KwargVal.b true)] else [])
  ++ (if args.shacl_file_format ≠ "" ∧ args.shacl_file_format ≠ "auto" then
        [("shacl_graph_format", KwargVal.s args.shacl_file_format)]
      else [])
  ++ (if args.ont_file_format ≠ "" ∧ args.ont_file_format ≠ "auto" then
        [("ont_graph_format", KwargVal.s args.ont_file_format)]
      else [])
  ++ (if args.data_file_format ≠ "" ∧ args.data_file_format ≠ "auto" then
        [("data_graph_format", KwargVal.s args.data_file_format)]
      else [])

/-- The warning written to the error stream when `--iterate-rules` is given
without `--advanced` (cli.py line 304). -/
def iterateRulesWarning : String :=
  "Iterate-Rules option only works when you enable Advanced Mode.\n"

/-- The option-phase error-stream writes (the only one is the iterate-rules
warning, cli.py lines 302-304). -/
def optionWarnings (args : Args) : List String :=
  if args.iterate_rules ∧ ¬args.advanced then [iterateRulesWarning] else []

/-- The report graph as returned by `validate(...)`: an `rdflib.Graph`
when no `serialize_report_graph` was requested, otherwise its serialized
form (bytes are decoded as UTF-8 on the output path, so the serialized
case carries the decoded text). -/
inductive VGraph where
  | graph (g : RGraph)
  | serialized (s : String)
deriving DecidableEq, Repr

/-- The outcome of the `validate(...)` call (cli.py line 327): either its
normal return triple, or one of the seven exception kinds caught by
cli.py lines 330-367.  `notImplementedError` carries `nie.args`. -/
inductive VOutcome where
  | success (conforms : Bool) (vgraph : VGraph) (vtext : String)
  | validationFailure (message : String)
  | shapeLoadError (msg : String)
  | constraintLoadError (msg : String)
  | ruleLoadError (msg : String)
  | reportableRuntimeError (message : String)
  | notImplementedError (eargs : List String)
  | runtimeError (msg : String)
deriving DecidableEq, Repr

/-- A write to the output destination (`args.output`).  `PrettyTable`
stringification is external, so a table write records the field names and
rows handed to the table. -/
inductive OutWrite where
  | text (s : String)
  | table (fieldNames : List String) (rows : List (List String))
deriving DecidableEq, Repr

/-- A write to `sys.stderr`. -/
inductive ErrWrite where
  | text (s : String)
  | usage
  | traceback
deriving DecidableEq, Repr

/-- How the process run ends: a `sys.exit(code)`, or an uncaught exception
propagating out of `main` (no taxonomy exit code). -/
inductive ProcExit where
  | exited (code : Nat)
  | crashed
deriving DecidableEq, Repr

/-- The observable behaviour of one invocation of `main` past mode
dispatch. -/
structure RunResult where
  outWrites : List OutWrite
  errWrites : List ErrWrite
  validatorInvoked : Bool
  closeAttempts : Nat
  exit : ProcExit
deriving DecidableEq, Repr

/-- Behaviour of `open(args.data, 'rb')` (cli.py lines 271-278), supplied
by the environment. -/
inductive FileOpen where
  | ok
  | notFound
  | permissionDenied
deriving DecidableEq, Repr

/-- The except-clause taxonomy (cli.py lines 330-367): for each failure
kind, the writes to the output stream, the writes to the error stream, and
the exit code set before the `finally` block runs.  Returns `none` on a
successful validation (no except clause fires). -/
def handleFailure : VOutcome → Option (List OutWrite × List ErrWrite × Nat)
  | .success _ _ _ => none
  | .validationFailure m =>
    some ([.text "Validator generated a Validation Failure result:\n",
           .text m, .text "\n"], [], 1)
  | .shapeLoadError m =>
    some ([], [.text "Validator encountered a Shape Load Error:\n", .text m], 2)
  | .constraintLoadError m =>
    some ([],
      [.text "Validator encountered a Constraint Load Error:\n", .text m], 2)
  | .ruleLoadError m =>
    some ([], [.text "Validator encountered a Rule Load Error:\n", .text m], 2)
  | .reportableRuntimeError m =>
    some ([],
      [.text "Validator encountered a Runtime Error:\n", .text m,
       .text "\nIf you believe this is a bug in pyshacl, open an Issue on the pyshacl github page.\n"],
      2)
  | .notImplementedError eargs =>
    some ([],
      [.text "Validator feature is not implemented:\n",
       .text (match eargs with
              | [] => "No message provided."
              | a :: _ => a),
       .text "\nIf your use-case requires this feature, open an Issue on the pyshacl github page.\n"],
      3)
  | .runtimeError _ =>
    some ([],
      [.traceback,
       .text "\n\nValidator encountered a Runtime Error. Please report this to the PySHACL issue tracker.\n"],
      2)

/-- The success-path rendering (cli.py lines 377-428): dispatch on the
requested format, then `sys.exit(0 if is_conform else 1)`.  A `KeyError`
in detail-row construction, the failed `assert isinstance(v_graph, Graph)`,
and writing a non-string report graph all propagate as a crash. -/
def renderSuccess (format : String) (conforms : Bool) (vg : VGraph)
    (vtext : String) : List OutWrite × ProcExit :=
  if format = "human" then
    ([.text vtext], .exited (if conforms then 0 else 1))
  else if format = "table" then
    let summary : List OutWrite :=
      [.table ["Conforms"] [[pyBool conforms]], .text "\n\n"]
    if conforms then (summary, .exited 0)
    else
      match vg with
      | .graph g =>
        match detailRows g with
        | .ok rows =>
          (summary ++ [.table detailFieldNames rows], .exited 1)
        | .error _ => (summary, .crashed)
      | .serialized _ => (summary, .crashed)
  else
    match vg with
    | .serialized s => ([.text s], .exited (if conforms then 0 else 1))
    | .graph _ => ([], .crashed)

/-- The error message of the `finally` block when `data_file.close()`
itself raises (cli.py lines 372-374). -/
def closeErrWrites : Option String → List ErrWrite
  | none => []
  | some e => [.text "Error closing data file:\n", .text e]

/-- The flow of `main` past mode dispatch (cli.py lines 255-428).
`fopen` is what `open(args.data, 'rb')` does, `outcome` what the
`validate(...)` call does, and `closeErr` the exception message raised by
`data_file.close()` (if any); all three are environment behaviour. -/
def runMain (args : Args) (fopen : FileOpen) (outcome : VOutcome)
    (closeErr : Option String) : RunResult :=
  if ¬optTruthy args.data then
    { outWrites := [],
      errWrites := [.text "Input Error. No DataGraph file or endpoint supplied.\n", .usage],
      validatorInvoked := false, closeAttempts := 0, exit := .exited 1 }
  else if args.sparql_mode then
    let endpoint := pyStrip (args.data.getD "")
    if ¬(pyStartswith (pyLower endpoint) "http:"
        ∨ pyStartswith (pyLower endpoint) "https:") then
      { outWrites := [],
        errWrites := [.text "Input Error. SPARQL Endpoint must start with http:// or https://.\n"],
        validatorInvoked := false, closeAttempts := 0, exit := .exited 1 }
    else
      runValidation args true outcome none
  else
    match fopen with
    | .notFound =>
      { outWrites := [],
        errWrites := [.text "Input Error. DataGraph file not found.\n"],
        validatorInvoked := false, closeAttempts := 0, exit := .exited 1 }
    | .permissionDenied =>
      { outWrites := [],
        errWrites := [.text "Input Error. DataGraph file not readable.\n"],
        validatorInvoked := false, closeAttempts := 0, exit := .exited 1 }
    | .ok => runValidation args false outcome closeErr
where
  /-- cli.py lines 282-428 once the data source is resolved: build the
  validator options (emitting the iterate-rules warning), call the
  validator, run the except/finally logic, then render on success.
  `isSparql = true` means no file was opened (`data_file is None`), so the
  `finally` block neither closes nor reports. -/
  runValidation (args : Args) (isSparql : Bool) (outcome : VOutcome)
      (closeErr : Option String) : RunResult :=
    let warn : List ErrWrite := (optionWarnings args).map ErrWrite.text
    let closes : Nat := if isSparql then 0 else 1
    let closeW : List ErrWrite := if isSparql then [] else closeErrWrites closeErr
    match handleFailure outcome with
    | some (ow, ew, code) =>
      { outWrites := ow, errWrites := warn ++ ew ++ closeW,
        validatorInvoked := true, closeAttempts := closes,
        exit := .exited code }
    | none =>
      match outcome with
      | .success conforms vg vtext =>
        let (ow, ex) := renderSuccess args.format conforms vg vtext
        { outWrites := ow, errWrites := warn ++ closeW,
          validatorInvoked := true, closeAttempts := closes, exit := ex }
      | _ =>
        { outWrites := [], errWrites := warn ++ closeW,
          validatorInvoked := true, closeAttempts := closes,
          exit := .crashed }

deriving instance DecidableEq for Except

/-- Data-source resolution succeeds and the `validate(...)` call is reached
(cli.py lines 255-281): a data source is supplied and, in SPARQL mode, it
has an `http:`/`https:` scheme, or otherwise the file opens. -/
def reachesValidator (args : Args) (fopen : FileOpen) : Bool :=
  optTruthy args.data &&
  (if args.sparql_mode then
    (pyStartswith (pyLower (pyStrip (args.data.getD ""))) "http:"
     || pyStartswith (pyLower (pyStrip (args.data.getD ""))) "https:")
  else fopen = FileOpen.ok)

/-- The exit-code table of the specification (§4.3/§4.4): a function of the
outcome kind and, on success, the conformance flag alone.  Stated from the
spec's words, to be compared with the exit behaviour of `runMain`. -/
def specExitCode : VOutcome → Nat
  | .success conforms _ _ => if conforms then 0 else 1
  | .validationFailure _ => 1
  | .shapeLoadError _ => 2
  | .constraintLoadError _ => 2
  | .ruleLoadError _ => 2
  | .reportableRuntimeError _ => 2
  | .notImplementedError _ => 3
  | .runtimeError _ => 2

/-- Recursive presentation of the detail-table loop (cli.py lines 405-421),
used for induction: build the row of each result object starting at
enumeration index `i`, appending the blank separator row after each data
row.  `detailRows` is proved equal to `detailRowsFrom g 0` on the result
objects. -/
def detailRowsFrom (g : RGraph) : Nat → List Node → Except Unit (List (List String))
  | _, [] => .ok []
  | i, o :: rest => do
    let row ← buildRow i (buildRecord g o)
    let tail ← detailRowsFrom g (i + 1) rest
    return row :: blankRow :: tail

/-- The four result-record fields read without a fallback
(cli.py lines 412-413 and 416-417). -/
def mandatoryPresent (r : List (Node × String)) : Bool :=
  (dictGet r SH_resultSeverity).isSome && (dictGet r SH_focusNode).isSome
  && (dictGet r SH_sourceConstraintComponent).isSome
  && (dictGet r SH_sourceShape).isSome

/-- A report graph in which two distinct subjects both link the same result
node `"x"` through `sh:result`; `"x"` carries the four mandatory fields. -/
def gShared : RGraph :=
  [⟨"r1", SH_result, "x"⟩,
   ⟨"r2", SH_result, "x"⟩,
   ⟨"x", SH_resultSeverity, "sev"⟩,
   ⟨"x", SH_focusNode, "fn"⟩,
   ⟨"x", SH_sourceConstraintComponent, "comp"⟩,
   ⟨"x", SH_sourceShape, "shp"⟩]

/-- A report graph with two result nodes carrying the four mandatory
fields, both missing `sh:resultPath` (and `sh:resultMessage`,
`sh:value`). -/
def gNoPath : RGraph :=
  [⟨"rep", SH_result, "y1"⟩,
   ⟨"rep", SH_result, "y2"⟩,
   ⟨"y1", SH_resultSeverity, "sev1"⟩,
   ⟨"y1", SH_focusNode, "fn1"⟩,
   ⟨"y1", SH_sourceConstraintComponent, "comp1"⟩,
   ⟨"y1", SH_sourceShape, "shp1"⟩,
   ⟨"y2", SH_resultSeverity, "sev2"⟩,
   ⟨"y2", SH_focusNode, "fn2"⟩,
   ⟨"y2", SH_sourceConstraintComponent, "comp2"⟩,
   ⟨"y2", SH_sourceShape, "shp2"⟩]

/-- A report graph whose single result node lacks `sh:resultSeverity`, one
of the four fields read without a fallback. -/
def gMissing : RGraph :=
  [⟨"rep", SH_result, "z"⟩,
   ⟨"z", SH_focusNode, "fn"⟩,
   ⟨"z", SH_sourceConstraintComponent, "comp"⟩,
   ⟨"z", SH_sourceShape, "shp"⟩]

/-- An invocation requesting `table` output on a file data source. -/
def argsTable : Args :=
  { data := some "data.ttl", format := "table" }

/-- An invocation requesting iterative rule expansion without advanced
features. -/
def argsIter : Args :=
  { data := some "d.ttl", iterate_rules := true }

theorem colWidtherGo_flatten :
    ∀ (fuel : Nat) (l : List Char), l.length ≤ fuel →
      (colWidtherGo fuel l).flatten = l := by
  intro fuel
  induction fuel with
  | zero =>
    intro l h
    cases l with
    | nil => rfl
    | cons c rest => simp at h
  | succ n ih =>
    intro l h
    cases l with
    | nil => rfl
    | cons c rest =>
      have hrest : rest.length ≤ n := by
        simpa using Nat.le_of_succ_le_succ h
      have hdrop : (rest.drop 24).length ≤ n := by
        rw [List.length_drop]
        omega
      simp only [colWidtherGo, List.flatten_cons, ih _ hdrop, List.cons_append,
        List.take_append_drop]

theorem colWidtherGo_chunk_le :
    ∀ (fuel : Nat) (l ch : List Char), ch ∈ colWidtherGo fuel l →
      ch.length ≤ 25 := by
  intro fuel
  induction fuel with
  | zero =>
    intro l ch h
    cases l <;> simp [colWidtherGo] at h
  | succ n ih =>
    intro l ch h
    cases l with
    | nil => simp [colWidtherGo] at h
    | cons c rest =>
      simp only [colWidtherGo, List.mem_cons] at h
      rcases h with h | h
      · subst h
        have := List.length_take 24 rest
        simp only [List.length_cons, List.length_take]
        omega
      · exact ih _ _ h

/-- C5: the 25-character column wrapper `col_widther` joins the successive
chunks with newlines, every chunk has at most 25 characters, and
concatenating the chunks restores the input string exactly — no character
is lost or truncated. -/
theorem col_widther_correct (s : String) :
    col_widther s
      = String.intercalate "\n" ((colWidtherChunks s.data).map List.asString)
    ∧ (colWidtherChunks s.data).flatten.asString = s
    ∧ ∀ ch ∈ colWidtherChunks s.data, ch.length ≤ 25 := by
  refine ⟨rfl, ?_, ?_⟩
  · rw [colWidtherChunks, colWidtherGo_flatten _ _ (Nat.le_refl _)]
    cases s
    rfl
  · intro ch hch
    exact colWidtherGo_chunk_le _ _ _ hch

theorem col_widther_correct_witness :
    "abcdefghijklmnopqrstuvwxy".data.length ≤ 25 :=
  (col_widther_correct "abcdefghijklmnopqrstuvwxyzABCDEFG").2.2
    "abcdefghijklmnopqrstuvwxy".data (by decide)

theorem str_is_true_empty : str_is_true "" = false := by decide

theorem str_is_true_iff (v : String) :
    str_is_true v = true
      ↔ v ≠ "" ∧ pyLower v ∉ (["0", "f", "n", "false", "no"] : List String) := by
  unfold str_is_true
  by_cases h0 : v = ""
  · subst h0
    decide
  · have hlen : 0 < v.length := by
      cases v with
      | mk d =>
        cases d with
        | nil => exact absurd (by decide : (⟨[]⟩ : String) = "") h0
        | cons c cs => simp [String.length]
    rw [if_pos hlen]
    by_cases h2 : pyLower v ∈ (["0", "f", "n", "false", "no"] : List String)
    · simp [h2]
    · simp [h2, h0]

theorem dispatch_server_iff (envHttp envServer : Option String) (parsed : Args) :
    dispatch envHttp envServer parsed = .serverMode true
      ↔ str_is_true (effectiveToggle envHttp envServer) = true := by
  simp only [dispatch]
  split_ifs with h1 h2 h3 h4 h5 <;>
    simp_all [str_is_true_empty]

/-- C6: the environment toggle's truthiness is "non-empty and the lowercase
value is not one of 0/f/n/false/no"; the second variable overrides the
first; and the dispatch enters server mode with argument parsing bypassed
exactly when the effective toggle value is truthy by that rule. -/
theorem server_mode_toggle (envHttp envServer : Option String) (parsed : Args) :
    (dispatch envHttp envServer parsed = .serverMode true
       ↔ str_is_true (effectiveToggle envHttp envServer) = true)
    ∧ (∀ v, effectiveToggle envHttp (some v) = v)
    ∧ effectiveToggle envHttp none = envHttp.getD ""
    ∧ ∀ v : String, (str_is_true v = true
        ↔ v ≠ "" ∧ pyLower v ∉ (["0", "f", "n", "false", "no"] : List String)) :=
  ⟨dispatch_server_iff envHttp envServer parsed, fun _ => rfl, rfl, str_is_true_iff⟩

theorem server_mode_toggle_witness :
    dispatch (some "0") (some "TRUE") { data := some "d.ttl" }
      = .serverMode true :=
  ((server_mode_toggle (some "0") (some "TRUE") { data := some "d.ttl" }).1).2
    (by decide)

/-- C4: when SPARQL mode is requested and the data-source string, after
stripping surrounding whitespace, does not start with `http:` or `https:`
case-insensitively, `main` writes a usage error to the error stream and
exits with code 1 without invoking the validator (with an empty data
source, the earlier missing-data usage error fires instead, with the same
stream, exit code, and absence of a validator call). -/
theorem sparql_scheme_usage_error (args : Args) (fopen : FileOpen)
    (outcome : VOutcome) (closeErr : Option String) (d : String)
    (h1 : args.sparql_mode = true) (h2 : args.data = some d)
    (h4 : pyStartswith (pyLower (pyStrip d)) "http:" = false)
    (h5 : pyStartswith (pyLower (pyStrip d)) "https:" = false) :
    runMain args fopen outcome closeErr =
      { outWrites := [],
        errWrites :=
          if d = "" then
            [.text "Input Error. No DataGraph file or endpoint supplied.\n",
             .usage]
          else
            [.text "Input Error. SPARQL Endpoint must start with http:// or https://.\n"],
        validatorInvoked := false, closeAttempts := 0, exit := .exited 1 } := by
  unfold runMain
  by_cases hd : d = ""
  · subst hd
    simp [h2, optTruthy]
  · simp [h1, h2, hd, optTruthy, h4, h5]

theorem sparql_scheme_usage_error_witness :
    runMain { data := some "ftp://example.org/x", sparql_mode := true }
        .ok (.success true (.graph []) "") none
      = { outWrites := [],
          errWrites :=
            [.text "Input Error. SPARQL Endpoint must start with http:// or https://.\n"],
          validatorInvoked := false, closeAttempts := 0,
          exit := .exited 1 } := by
  have h := sparql_scheme_usage_error
    { data := some "ftp://example.org/x", sparql_mode := true }
    .ok (.success true (.graph []) "") none "ftp://example.org/x"
    rfl rfl (by decide) (by decide)
  simpa using h

theorem detailRowsFrom_spec (g : RGraph) :
    ∀ (os : List Node) (i : Nat),
      (do
        let rows ← (os.enumFrom i).mapM
          (fun io => buildRow io.1 (buildRecord g io.2))
        pure ((rows.map (fun r => [r, blankRow])).flatten)
        : Except Unit (List (List String)))
        = detailRowsFrom g i os := by
  intro os
  induction os with
  | nil => intro i; rfl
  | cons o rest ih =>
    intro i
    rw [List.enumFrom_cons, List.mapM_cons, detailRowsFrom, ← ih (i + 1)]
    cases hb : buildRow i (buildRecord g o) with
    | error e => rfl
    | ok row =>
      cases hm : (rest.enumFrom (i + 1)).mapM
          (fun io => buildRow io.1 (buildRecord g io.2)) with
      | error e => rfl
      | ok ys => rfl

theorem detailRows_eq (g : RGraph) :
    detailRows g = detailRowsFrom g 0 (objectsOf g SH_result) := by
  rw [← detailRowsFrom_spec g (objectsOf g SH_result) 0]
  rfl

theorem detailRowsFrom_cons (g : RGraph) (o : Node) (rest : List Node)
    (i : Nat) :
    detailRowsFrom g i (o :: rest) =
      match buildRow i (buildRecord g o) with
      | .error e => .error e
      | .ok row =>
        match detailRowsFrom g (i + 1) rest with
        | .error e => .error e
        | .ok tail => .ok (row :: blankRow :: tail) := by
  rw [detailRowsFrom]
  cases buildRow i (buildRecord g o) with
  | error e => rfl
  | ok row =>
    cases detailRowsFrom g (i + 1) rest with
    | error e => rfl
    | ok tail => rfl

theorem buildRow_ok_iff (i : Nat) (r : List (Node × String)) :
    (∃ row, buildRow i r = .ok row) ↔ mandatoryPresent r = true := by
  unfold buildRow mandatoryPresent
  cases dictGet r SH_resultSeverity <;>
    cases dictGet r SH_focusNode <;>
      cases dictGet r SH_sourceConstraintComponent <;>
        cases dictGet r SH_sourceShape <;> simp

theorem buildRow_fields (i : Nat) (r : List (Node × String))
    (row : List String) (h : buildRow i r = .ok row) :
    row.length = 8
    ∧ row[0]? = some (toString (i + 1))
    ∧ row[3]? = some ((dictGet r SH_resultPath).getD "-")
    ∧ row[4]? = some ((dictGet r SH_resultMessage).getD "-")
    ∧ row[7]? = some ((dictGet r SH_value).getD "-") := by
  unfold buildRow at h
  revert h
  cases dictGet r SH_resultSeverity <;>
    cases dictGet r SH_focusNode <;>
      cases dictGet r SH_sourceConstraintComponent <;>
        cases dictGet r SH_sourceShape <;> intro h <;>
          first
          | (cases h; refine ⟨rfl, ?_, ?_, ?_, ?_⟩ <;> simp)
          | simp_all

theorem detailRowsFrom_ok_length (g : RGraph) :
    ∀ (os : List Node) (i : Nat) (rows : List (List String)),
      detailRowsFrom g i os = .ok rows → rows.length = 2 * os.length := by
  intro os
  induction os with
  | nil =>
    intro i rows h
    simp only [detailRowsFrom] at h
    cases h
    rfl
  | cons o rest ih =>
    intro i rows h
    rw [detailRowsFrom_cons] at h
    cases hb : buildRow i (buildRecord g o) with
    | error e => rw [hb] at h; simp at h
    | ok row =>
      rw [hb] at h
      cases hm : detailRowsFrom g (i + 1) rest with
      | error e => rw [hm] at h; simp at h
      | ok tail =>
        rw [hm] at h
        have hrows : row :: blankRow :: tail = rows := by simpa using h
        subst hrows
        have := ih (i + 1) tail hm
        simp only [List.length_cons, this]
        omega

theorem detailRowsFrom_get (g : RGraph) :
    ∀ (os : List Node) (i k : Nat) (rows : List (List String)) (o : Node),
      detailRowsFrom g i os = .ok rows → os[k]? = some o →
      ∃ row, buildRow (i + k) (buildRecord g o) = .ok row
        ∧ rows[2 * k]? = some row ∧ rows[2 * k + 1]? = some blankRow := by
  intro os
  induction os with
  | nil => intro i k rows o h hk; simp at hk
  | cons o' rest ih =>
    intro i k rows o h hk
    rw [detailRowsFrom_cons] at h
    cases hb : buildRow i (buildRecord g o') with
    | error e => rw [hb] at h; simp at h
    | ok row =>
      rw [hb] at h
      cases hm : detailRowsFrom g (i + 1) rest with
      | error e => rw [hm] at h; simp at h
      | ok tail =>
        rw [hm] at h
        have hrows : row :: blankRow :: tail = rows := by simpa using h
        subst hrows
        cases k with
        | zero =>
          have ho : o' = o := by simpa using hk
          subst ho
          exact ⟨row, by simpa using hb, by simp, by simp⟩
        | succ k' =>
          have hk' : rest[k']? = some o := by simpa using hk
          obtain ⟨row', hrow', h1, h2⟩ := ih (i + 1) k' tail o hm hk'
          refine ⟨row', ?_, ?_, ?_⟩
          · rw [show i + (k' + 1) = i + 1 + k' by omega]
            exact hrow'
          · rw [show 2 * (k' + 1) = 2 * k' + 1 + 1 by omega]
            simpa using h1
          · rw [show 2 * (k' + 1) + 1 = 2 * k' + 1 + 1 + 1 by omega]
            simpa using h2

theorem detailRowsFrom_ok_of_mandatory (g : RGraph) :
    ∀ (os : List Node) (i : Nat),
      (∀ o ∈ os, mandatoryPresent (buildRecord g o) = true) →
      ∃ rows, detailRowsFrom g i os = .ok rows := by
  intro os
  induction os with
  | nil => intro i _; exact ⟨[], rfl⟩
  | cons o rest ih =>
    intro i hall
    obtain ⟨row, hrow⟩ := (buildRow_ok_iff i (buildRecord g o)).2
      (hall o (by simp))
    obtain ⟨tail, htail⟩ := ih (i + 1) (fun o' ho' => hall o' (by simp [ho']))
    exact ⟨row :: blankRow :: tail, by rw [detailRowsFrom_cons, hrow, htail]⟩

theorem lookup_eq_none_of_keys (p : Node) :
    ∀ l : List (Node × String), (∀ kv ∈ l, kv.1 ≠ p) →
      List.lookup p l = none := by
  intro l
  induction l with
  | nil => intro _; rfl
  | cons kv t ih =>
    intro h
    have hk : kv.1 ≠ p := h kv (by simp)
    have hbeq : (p == kv.1) = false := by
      simp only [beq_eq_false_iff_ne, ne_eq]
      exact fun he => hk he.symm
    simp only [List.lookup, hbeq]
    exact ih fun kv' hkv' => h kv' (by simp [hkv'])

theorem dictGet_buildRecord_none (g : RGraph) (o p : Node)
    (h : ∀ t ∈ g, t.subj = o → t.pred ≠ p) :
    dictGet (buildRecord g o) p = none := by
  unfold dictGet
  refine lookup_eq_none_of_keys p _ ?_
  intro kv hkv
  rw [List.mem_reverse] at hkv
  unfold buildRecord predicateObjectsOf at hkv
  simp only [List.map_map, List.mem_map, List.mem_filter] at hkv
  obtain ⟨t, ⟨htg, hts⟩, hkv⟩ := hkv
  subst hkv
  exact h t htg (by simpa using hts)

/-- C3 (amended): in `table` format the conforms summary table is always
written first; the detail table is written if and only if the conformance
flag is false, and it then contains one data row per occurrence of the
`sh:result` predicate — one per result triple, in graph traversal order,
numbered from 1 — a result node linked by several result triples yields
one row per link; each data row is followed by one all-empty separator
row. -/
theorem table_format_structure (conforms : Bool) (g : RGraph)
    (vtext : String) :
    ((renderSuccess "table" conforms (.graph g) vtext).1).head?
        = some (.table ["Conforms"] [[pyBool conforms]])
    ∧ (conforms = true →
        renderSuccess "table" conforms (.graph g) vtext
          = ([.table ["Conforms"] [[pyBool true]], .text "\n\n"], .exited 0))
    ∧ (conforms = false → ∀ rows, detailRows g = .ok rows →
        renderSuccess "table" conforms (.graph g) vtext
          = ([.table ["Conforms"] [[pyBool false]], .text "\n\n",
              .table detailFieldNames rows], .exited 1)
        ∧ rows.length = 2 * (objectsOf g SH_result).length
        ∧ ∀ (k : Nat) (o : Node), (objectsOf g SH_result)[k]? = some o →
            ∃ row, rows[2 * k]? = some row
              ∧ buildRow k (buildRecord g o) = .ok row
              ∧ row[0]? = some (toString (k + 1))
              ∧ rows[2 * k + 1]? = some blankRow) := by
  refine ⟨?_, ?_, ?_⟩
  · cases conforms
    · cases hdr : detailRows g <;> simp [renderSuccess, hdr]
    · simp [renderSuccess]
  · intro hc
    subst hc
    simp [renderSuccess]
  · intro hc rows hrows
    subst hc
    refine ⟨by simp [renderSuccess, hrows], ?_, ?_⟩
    · rw [detailRows_eq] at hrows
      exact detailRowsFrom_ok_length g _ 0 rows hrows
    · intro k o hk
      rw [detailRows_eq] at hrows
      obtain ⟨row, hrow, h1, h2⟩ := detailRowsFrom_get g _ 0 k rows o hrows hk
      rw [Nat.zero_add] at hrow
      obtain ⟨_, hr0, _, _, _⟩ := buildRow_fields k _ row hrow
      exact ⟨row, h1, hrow, hr0, h2⟩

theorem table_format_structure_witness :
    renderSuccess "table" false (.graph gShared) ""
        = ([.table ["Conforms"] [[pyBool false]], .text "\n\n",
            .table detailFieldNames
              [["1", "sev", "fn", "-", "-", "comp", "shp", "-"], blankRow,
               ["2", "sev", "fn", "-", "-", "comp", "shp", "-"], blankRow]],
           .exited 1) := by
  exact ((table_format_structure false gShared "").2.2 rfl _ (by decide)).1

/-- C3 counterexample: the claim "exactly one data row per distinct result
node reachable via the result predicate" fails when two distinct subjects
link the same result node: the loop iterates once per `sh:result` triple,
so `gShared` renders its single distinct result node twice. -/
theorem detail_rows_per_distinct_node_cex :
    ¬ ∀ (g : RGraph) (rows : List (List String)),
        detailRows g = .ok rows →
        rows.length = 2 * (objectsOf g SH_result).dedup.length := by
  intro hclaim
  have h := hclaim gShared
    [["1", "sev", "fn", "-", "-", "comp", "shp", "-"], blankRow,
     ["2", "sev", "fn", "-", "-", "comp", "shp", "-"], blankRow]
    (by decide)
  rw [show (objectsOf gShared SH_result).dedup = ["x"] by decide] at h
  simp at h

/-- C9: for every result node rendered in table format, each of the
optional fields result-path (column 3), message (column 4) and value
(column 7) is rendered as the placeholder "-" when that predicate is
absent from the node's triples, and the data row is followed by a blank
separator row. -/
theorem optional_fields_dash (g : RGraph) (rows : List (List String))
    (k : Nat) (o : Node)
    (hrows : detailRows g = .ok rows)
    (hk : (objectsOf g SH_result)[k]? = some o) :
    ∃ row, rows[2 * k]? = some row ∧ rows[2 * k + 1]? = some blankRow
      ∧ ((∀ t ∈ g, t.subj = o → t.pred ≠ SH_resultPath) →
          row[3]? = some "-")
      ∧ ((∀ t ∈ g, t.subj = o → t.pred ≠ SH_resultMessage) →
          row[4]? = some "-")
      ∧ ((∀ t ∈ g, t.subj = o → t.pred ≠ SH_value) →
          row[7]? = some "-") := by
  rw [detailRows_eq] at hrows
  obtain ⟨row, hrow, h1, h2⟩ := detailRowsFrom_get g _ 0 k rows o hrows hk
  rw [Nat.zero_add] at hrow
  obtain ⟨_, _, h3, h4, h7⟩ := buildRow_fields k _ row hrow
  refine ⟨row, h1, h2, ?_, ?_, ?_⟩ <;> intro habs
  · rw [h3, dictGet_buildRecord_none g o _ habs]
    rfl
  · rw [h4, dictGet_buildRecord_none g o _ habs]
    rfl
  · rw [h7, dictGet_buildRecord_none g o _ habs]
    rfl

theorem optional_fields_dash_witness :
    (∃ row,
      ([["1", "sev1", "fn1", "-", "-", "comp1", "shp1", "-"], blankRow,
        ["2", "sev2", "fn2", "-", "-", "comp2", "shp2", "-"], blankRow]
        : List (List String))[2 * 0]? = some row
      ∧ row[3]? = some "-")
    ∧ ∃ row,
      ([["1", "sev1", "fn1", "-", "-", "comp1", "shp1", "-"], blankRow,
        ["2", "sev2", "fn2", "-", "-", "comp2", "shp2", "-"], blankRow]
        : List (List String))[2 * 1]? = some row
      ∧ row[3]? = some "-" := by
  constructor
  · obtain ⟨row, ha, _, hc, _, _⟩ :=
      optional_fields_dash gNoPath
        [["1", "sev1", "fn1", "-", "-", "comp1", "shp1", "-"], blankRow,
         ["2", "sev2", "fn2", "-", "-", "comp2", "shp2", "-"], blankRow]
        0 "y1" (by decide) (by decide)
    exact ⟨row, ha, hc (by decide)⟩
  · obtain ⟨row, ha, _, hc, _, _⟩ :=
      optional_fields_dash gNoPath
        [["1", "sev1", "fn1", "-", "-", "comp1", "shp1", "-"], blankRow,
         ["2", "sev2", "fn2", "-", "-", "comp2", "shp2", "-"], blankRow]
        1 "y2" (by decide) (by decide)
    exact ⟨row, ha, hc (by decide)⟩

theorem kwarg_iterate_mem (args : Args) (sparql : Bool) (v : KwargVal) :
    ("iterate_rules", v) ∈ build_kwargs args sparql
      ↔ args.iterate_rules = true ∧ args.advanced = true
        ∧ v = KwargVal.b true := by
  unfold build_kwargs
  cases args.shacl <;> cases args.ont <;> cases args.focus <;>
    cases args.shape <;> simp

theorem runMain_reaches (args : Args) (fopen : FileOpen) (outcome : VOutcome)
    (closeErr : Option String) (h : reachesValidator args fopen = true) :
    runMain args fopen outcome closeErr =
      runMain.runValidation args args.sparql_mode outcome
        (if args.sparql_mode then none else closeErr) := by
  unfold reachesValidator at h
  rw [Bool.and_eq_true] at h
  obtain ⟨h1, h2⟩ := h
  by_cases hs : args.sparql_mode = true
  · rw [if_pos hs] at h2
    rw [Bool.or_eq_true] at h2
    unfold runMain
    rw [if_neg (by simp [h1]), if_pos hs, if_neg (not_not_intro h2), hs,
      if_pos rfl]
  · rw [if_neg hs] at h2
    have hf : fopen = FileOpen.ok := of_decide_eq_true h2
    subst hf
    have hs' : args.sparql_mode = false := by
      cases hsm : args.sparql_mode
      · rfl
      · exact absurd hsm hs
    unfold runMain
    rw [if_neg (by simp [h1]), if_neg (by simp [hs']), hs', if_neg (by simp)]

theorem renderSuccess_exit (format : String) (conforms : Bool) (vg : VGraph)
    (vtext : String) (c : Nat)
    (h : (renderSuccess format conforms vg vtext).2 = .exited c) :
    c = if conforms then 0 else 1 := by
  unfold renderSuccess at h
  by_cases h1 : format = "human"
  · rw [if_pos h1] at h
    simpa using h.symm
  · rw [if_neg h1] at h
    by_cases h2 : format = "table"
    · rw [if_pos h2] at h
      cases conforms
      · rw [if_neg (by simp)] at h
        cases vg with
        | graph g =>
          cases hdr : detailRows g <;> simp only [hdr] at h <;> simp_all
        | serialized s => simp at h
      · rw [if_pos rfl] at h
        simpa using h.symm
    · rw [if_neg h2] at h
      cases vg with
      | graph g => simp at h
      | serialized s => simpa using h.symm

theorem runValidation_success_exit (args : Args) (sparql : Bool)
    (conforms : Bool) (vg : VGraph) (vtext : String) (ce : Option String) :
    (runMain.runValidation args sparql (.success conforms vg vtext) ce).exit
      = (renderSuccess args.format conforms vg vtext).2 := rfl

theorem runValidation_failure (args : Args) (sparql : Bool)
    (outcome : VOutcome) (ce : Option String)
    (ow : List OutWrite) (ew : List ErrWrite) (code : Nat)
    (h : handleFailure outcome = some (ow, ew, code)) :
    runMain.runValidation args sparql outcome ce =
      { outWrites := ow,
        errWrites := (optionWarnings args).map ErrWrite.text ++ ew
          ++ (if sparql then [] else closeErrWrites ce),
        validatorInvoked := true,
        closeAttempts := if sparql then 0 else 1,
        exit := .exited code } := by
  unfold runMain.runValidation
  rw [h]

theorem handleFailure_code (outcome : VOutcome) (ow : List OutWrite)
    (ew : List ErrWrite) (code : Nat)
    (h : handleFailure outcome = some (ow, ew, code)) :
    code = specExitCode outcome := by
  cases outcome <;> simp_all [handleFailure, specExitCode]

theorem runValidation_invoked (args : Args) (sparql : Bool)
    (outcome : VOutcome) (ce : Option String) :
    (runMain.runValidation args sparql outcome ce).validatorInvoked = true := by
  unfold runMain.runValidation
  cases h : handleFailure outcome with
  | some t =>
    obtain ⟨ow, ew, code⟩ := t
    rfl
  | none => cases outcome <;> rfl

theorem runValidation_err_shape (args : Args) (sparql : Bool)
    (outcome : VOutcome) (ce : Option String) :
    ∃ rest, (runMain.runValidation args sparql outcome ce).errWrites
      = (optionWarnings args).map ErrWrite.text ++ rest := by
  unfold runMain.runValidation
  cases h : handleFailure outcome with
  | some t =>
    obtain ⟨ow, ew, code⟩ := t
    exact ⟨ew ++ (if sparql = true then [] else closeErrWrites ce), by simp⟩
  | none =>
    cases outcome <;>
      exact ⟨(if sparql = true then [] else closeErrWrites ce), by simp⟩

theorem runValidation_parts (args : Args) (outcome : VOutcome)
    (ce : Option String) :
    (runMain.runValidation args false outcome ce).closeAttempts = 1
    ∧ (runMain.runValidation args false outcome ce).exit
        = (runMain.runValidation args false outcome none).exit
    ∧ (runMain.runValidation args false outcome ce).outWrites
        = (runMain.runValidation args false outcome none).outWrites
    ∧ (runMain.runValidation args false outcome ce).errWrites
        = (runMain.runValidation args false outcome none).errWrites
          ++ closeErrWrites ce := by
  unfold runMain.runValidation
  cases h : handleFailure outcome with
  | some t =>
    obtain ⟨ow, ew, code⟩ := t
    simp [closeErrWrites]
  | none =>
    cases outcome with
    | success conf vg vtext =>
      rcases hrs : renderSuccess args.format conf vg vtext with ⟨ow, ex⟩
      simp [hrs, closeErrWrites]
    | validationFailure m => simp [handleFailure] at h
    | shapeLoadError m => simp [handleFailure] at h
    | constraintLoadError m => simp [handleFailure] at h
    | ruleLoadError m => simp [handleFailure] at h
    | reportableRuntimeError m => simp [handleFailure] at h
    | notImplementedError eargs => simp [handleFailure] at h
    | runtimeError m => simp [handleFailure] at h

/-- C1: once the validator has been invoked, the exit code is a pure
function of the outcome kind and, on success, the conformance flag,
matching the §4.3/§4.4 table (`specExitCode`): every `sys.exit(c)` carries
`c = specExitCode outcome`, and every failure outcome always reaches
`sys.exit` with exactly that code — independently of the output format,
the report graph, and any close error. -/
theorem exit_code_deterministic (args : Args) (fopen : FileOpen)
    (outcome : VOutcome) (closeErr : Option String)
    (h : reachesValidator args fopen = true) :
    (∀ c, (runMain args fopen outcome closeErr).exit = .exited c →
        c = specExitCode outcome)
    ∧ ((handleFailure outcome).isSome = true →
        (runMain args fopen outcome closeErr).exit
          = .exited (specExitCode outcome)) := by
  rw [runMain_reaches args fopen outcome closeErr h]
  constructor
  · intro c hc
    cases houtcome : handleFailure outcome with
    | some t =>
      obtain ⟨ow, ew, code⟩ := t
      rw [runValidation_failure args _ outcome _ ow ew code houtcome] at hc
      simp only [ProcExit.exited.injEq] at hc
      rw [← hc]
      exact handleFailure_code outcome ow ew code houtcome
    | none =>
      cases outcome with
      | success conf vg vtext =>
        rw [runValidation_success_exit] at hc
        have := renderSuccess_exit args.format conf vg vtext c hc
        simpa [specExitCode] using this
      | validationFailure m => simp [handleFailure] at houtcome
      | shapeLoadError m => simp [handleFailure] at houtcome
      | constraintLoadError m => simp [handleFailure] at houtcome
      | ruleLoadError m => simp [handleFailure] at houtcome
      | reportableRuntimeError m => simp [handleFailure] at houtcome
      | notImplementedError eargs => simp [handleFailure] at houtcome
      | runtimeError m => simp [handleFailure] at houtcome
  · intro hsome
    cases houtcome : handleFailure outcome with
    | none => rw [houtcome] at hsome; simp at hsome
    | some t =>
      obtain ⟨ow, ew, code⟩ := t
      rw [runValidation_failure args _ outcome _ ow ew code houtcome,
        handleFailure_code outcome ow ew code houtcome]

theorem exit_code_deterministic_witness :
    (1 : Nat) = specExitCode (.validationFailure "boom") :=
  (exit_code_deterministic argsTable .ok (.validationFailure "boom") none
    (by decide)).1 1 (by decide)

/-- C2: for every failure kind the destination stream, extra text and exit
code follow the §4.3 table exactly: only a validation-failure writes its
message to the output stream (exit 1); shape-load, constraint-load,
rule-load, reportable-runtime, unclassified-runtime and
unimplemented-feature messages all go to the error stream; the
reportable-runtime and unimplemented cases append a pointer to file an
issue, the unimplemented case substitutes a placeholder message when the
exception carries none, and the unclassified runtime case prints a stack
trace before its summary line.  (Stated for runs with no iterate-rules
warning and no close error, isolating the failure writes.) -/
theorem failure_stream_taxonomy (args : Args) (fopen : FileOpen)
    (h : reachesValidator args fopen = true)
    (hw : optionWarnings args = []) :
    (∀ m, runMain args fopen (.validationFailure m) none
      = { outWrites :=
            [.text "Validator generated a Validation Failure result:\n",
             .text m, .text "\n"],
          errWrites := [], validatorInvoked := true,
          closeAttempts := if args.sparql_mode then 0 else 1,
          exit := .exited 1 })
    ∧ (∀ m, runMain args fopen (.shapeLoadError m) none
      = { outWrites := [],
          errWrites := [.text "Validator encountered a Shape Load Error:\n",
            .text m],
          validatorInvoked := true,
          closeAttempts := if args.sparql_mode then 0 else 1,
          exit := .exited 2 })
    ∧ (∀ m, runMain args fopen (.constraintLoadError m) none
      = { outWrites := [],
          errWrites :=
            [.text "Validator encountered a Constraint Load Error:\n",
             .text m],
          validatorInvoked := true,
          closeAttempts := if args.sparql_mode then 0 else 1,
          exit := .exited 2 })
    ∧ (∀ m, runMain args fopen (.ruleLoadError m) none
      = { outWrites := [],
          errWrites := [.text "Validator encountered a Rule Load Error:\n",
            .text m],
          validatorInvoked := true,
          closeAttempts := if args.sparql_mode then 0 else 1,
          exit := .exited 2 })
    ∧ (∀ m, runMain args fopen (.reportableRuntimeError m) none
      = { outWrites := [],
          errWrites := [.text "Validator encountered a Runtime Error:\n",
            .text m,
            .text "\nIf you believe this is a bug in pyshacl, open an Issue on the pyshacl github page.\n"],
          validatorInvoked := true,
          closeAttempts := if args.sparql_mode then 0 else 1,
          exit := .exited 2 })
    ∧ (∀ eargs, runMain args fopen (.notImplementedError eargs) none
      = { outWrites := [],
          errWrites := [.text "Validator feature is not implemented:\n",
            .text (match eargs with
                   | [] => "No message provided."
                   | a :: _ => a),
            .text "\nIf your use-case requires this feature, open an Issue on the pyshacl github page.\n"],
          validatorInvoked := true,
          closeAttempts := if args.sparql_mode then 0 else 1,
          exit := .exited 3 })
    ∧ (∀ m, runMain args fopen (.runtimeError m) none
      = { outWrites := [],
          errWrites := [.traceback,
            .text "\n\nValidator encountered a Runtime Error. Please report this to the PySHACL issue tracker.\n"],
          validatorInvoked := true,
          closeAttempts := if args.sparql_mode then 0 else 1,
          exit := .exited 2 }) := by
  refine ⟨?_, ?_, ?_, ?_, ?_, ?_, ?_⟩ <;> intro m <;>
    rw [runMain_reaches args fopen _ none h] <;>
    unfold runMain.runValidation <;>
    cases hs : args.sparql_mode <;>
      simp [handleFailure, hw, closeErrWrites]

theorem failure_stream_taxonomy_witness :
    runMain argsTable .ok (.notImplementedError []) none
      = { outWrites := [],
          errWrites := [.text "Validator feature is not implemented:\n",
            .text "No message provided.",
            .text "\nIf your use-case requires this feature, open an Issue on the pyshacl github page.\n"],
          validatorInvoked := true, closeAttempts := 1,
          exit := .exited 3 } := by
  have h := (failure_stream_taxonomy argsTable .ok (by decide)
    (by decide)).2.2.2.2.2.1 []
  simpa using h

/-- C7: on every invocation that opened the data source as a file (a
non-SPARQL run whose file open succeeded), closing the input stream is
attempted exactly once on every exit path — for every validator outcome,
including an unclassified runtime error — and a failure during the close
itself is reported on the error stream but changes neither the exit nor
any output-stream write. -/
theorem close_exactly_once (args : Args) (outcome : VOutcome)
    (closeErr : Option String)
    (h1 : optTruthy args.data = true) (h2 : args.sparql_mode = false) :
    (runMain args .ok outcome closeErr).closeAttempts = 1
    ∧ (runMain args .ok outcome closeErr).exit
        = (runMain args .ok outcome none).exit
    ∧ (runMain args .ok outcome closeErr).outWrites
        = (runMain args .ok outcome none).outWrites
    ∧ ∀ e, closeErr = some e →
        (runMain args .ok outcome closeErr).errWrites
          = (runMain args .ok outcome none).errWrites
            ++ [.text "Error closing data file:\n", .text e] := by
  have hre : reachesValidator args .ok = true := by
    simp [reachesValidator, h1, h2]
  rw [runMain_reaches args .ok outcome closeErr hre,
    runMain_reaches args .ok outcome none hre, h2]
  simp only [Bool.false_eq_true, if_false]
  obtain ⟨p1, p2, p3, p4⟩ := runValidation_parts args outcome closeErr
  refine ⟨p1, p2, p3, ?_⟩
  intro e he
  subst he
  simpa [closeErrWrites] using p4

theorem close_exactly_once_witness :
    (runMain argsTable .ok (.runtimeError "crash") (some "efail")).closeAttempts
        = 1
    ∧ (runMain argsTable .ok (.runtimeError "crash") (some "efail")).errWrites
        = (runMain argsTable .ok (.runtimeError "crash") none).errWrites
          ++ [.text "Error closing data file:\n", .text "efail"] :=
  ⟨(close_exactly_once argsTable (.runtimeError "crash") (some "efail")
      (by decide) rfl).1,
   (close_exactly_once argsTable (.runtimeError "crash") (some "efail")
      (by decide) rfl).2.2.2 "efail" rfl⟩

/-- C8: iterative rule expansion is forwarded to the validator exactly when
advanced features are enabled as well; requesting it without advanced mode
writes a warning to the error stream, omits the flag from the forwarded
options, and the run continues (the validator is still invoked) rather
than aborting. -/
theorem iterate_rules_policy (args : Args) (fopen : FileOpen)
    (outcome : VOutcome) (closeErr : Option String)
    (h : reachesValidator args fopen = true) :
    (∀ v, ("iterate_rules", v) ∈ build_kwargs args args.sparql_mode
        ↔ args.iterate_rules = true ∧ args.advanced = true
          ∧ v = KwargVal.b true)
    ∧ (args.iterate_rules = true → args.advanced = false →
        ErrWrite.text iterateRulesWarning
            ∈ (runMain args fopen outcome closeErr).errWrites
          ∧ (runMain args fopen outcome closeErr).validatorInvoked = true) := by
  refine ⟨fun v => kwarg_iterate_mem args args.sparql_mode v, ?_⟩
  intro hit hadv
  rw [runMain_reaches args fopen outcome closeErr h]
  refine ⟨?_, runValidation_invoked args args.sparql_mode outcome _⟩
  obtain ⟨rest, hrest⟩ := runValidation_err_shape args args.sparql_mode
    outcome (if args.sparql_mode then none else closeErr)
  rw [hrest]
  apply List.mem_append_left
  simp [optionWarnings, hit, hadv]

theorem iterate_rules_policy_witness :
    ErrWrite.text iterateRulesWarning
        ∈ (runMain argsIter .ok (.success true (.graph []) "") none).errWrites
    ∧ (runMain argsIter .ok
        (.success true (.graph []) "") none).validatorInvoked = true :=
  (iterate_rules_policy argsIter .ok (.success true (.graph []) "") none
    (by decide)).2 rfl rfl

theorem buildRow_error_of_missing (i : Nat) (r : List (Node × String))
    (h : mandatoryPresent r = false) : buildRow i r = .error () := by
  cases hb : buildRow i r with
  | error e => cases e; rfl
  | ok row =>
    exact absurd ((buildRow_ok_iff i r).1 ⟨row, hb⟩) (by simp [h])

theorem detailRowsFrom_error_of_missing (g : RGraph) :
    ∀ (os : List Node) (i : Nat) (o : Node), o ∈ os →
      mandatoryPresent (buildRecord g o) = false →
      detailRowsFrom g i os = .error () := by
  intro os
  induction os with
  | nil => intro i o ho; simp at ho
  | cons o' rest ih =>
    intro i o ho hmiss
    rw [detailRowsFrom_cons]
    rcases List.mem_cons.1 ho with he | hr
    · subst he
      rw [buildRow_error_of_missing i _ hmiss]
    · cases hb : buildRow i (buildRecord g o') with
      | error e => cases e; rfl
      | ok row =>
        rw [ih (i + 1) o hr hmiss]

/-- C10: the severity, focus-node, source-constraint-component and
source-shape fields are read by direct dictionary lookup with no fallback:
whenever every result node carries all four, row construction succeeds; and
for every report graph in which some result node lacks one of them, row
construction raises an uncaught lookup error, so every table-format
rendering of a non-conformant outcome on that graph ends in a crash with
no taxonomy exit code — the taxonomy handlers catch only validator
exceptions. -/
theorem mandatory_lookup_safety :
    (∀ g : RGraph,
      (∀ o ∈ objectsOf g SH_result,
          mandatoryPresent (buildRecord g o) = true) →
      ∃ rows, detailRows g = .ok rows)
    ∧ ∀ (g : RGraph) (o : Node), o ∈ objectsOf g SH_result →
        mandatoryPresent (buildRecord g o) = false →
        detailRows g = .error ()
        ∧ ∀ (args : Args) (fopen : FileOpen) (vtext : String)
            (closeErr : Option String),
            reachesValidator args fopen = true → args.format = "table" →
            (runMain args fopen (.success false (.graph g) vtext)
                closeErr).exit = .crashed := by
  constructor
  · intro g hall
    rw [detailRows_eq]
    exact detailRowsFrom_ok_of_mandatory g _ 0 hall
  · intro g o ho hmiss
    have herr : detailRows g = .error () := by
      rw [detailRows_eq]
      exact detailRowsFrom_error_of_missing g _ 0 o ho hmiss
    refine ⟨herr, ?_⟩
    intro args fopen vtext closeErr hre hfmt
    rw [runMain_reaches args fopen _ closeErr hre,
      runValidation_success_exit, hfmt]
    unfold renderSuccess
    rw [if_neg (by decide), if_pos rfl, if_neg (by simp)]
    simp [herr]

theorem mandatory_lookup_safety_witness :
    (∃ rows, detailRows gShared = .ok rows)
    ∧ detailRows gMissing = .error ()
    ∧ (runMain argsTable .ok (.success false (.graph gMissing) "")
        none).exit = .crashed :=
  ⟨mandatory_lookup_safety.1 gShared (by decide),
   (mandatory_lookup_safety.2 gMissing "z" (by decide) (by decide)).1,
   (mandatory_lookup_safety.2 gMissing "z" (by decide) (by decide)).2
     argsTable .ok "" none (by decide) rfl⟩
